import Mathlib

/-!
Verification of the cookoo execution core: the Getter abstraction of
`getter.go`, the Value Store (Context) with its shallow `Copy`, and the
chain executor (Router) with its control signals.

Go `interface{}` values stored in contexts and datasources are embedded as a
tagged union `ContextValue`.  Go's distinct machine types (`int`, `int32`,
`int64`, `uint64`, `float64`) are distinguished by tag, since the typed
accessors of `getter.go` only ever inspect the dynamic type tag and pass the
payload through unchanged; a `float64` payload is therefore carried as its
opaque bit pattern (a `Nat`).  A mutable aggregate (such as the test suite's
`LameStruct` holding a slice of strings) is represented by a heap address
(`ref`), so that the shallow-copy sharing semantics is observable.  A failed
Go type assertion `v.(T)` (a run-time panic) is embedded as `Option.none`.
-/

/-- A stored context value: the embedding of Go `interface{}` values. -/
inductive ContextValue where
  | str (s : String)
  | bool (b : Bool)
  | int (n : Int)
  | int32 (n : Int)
  | int64 (n : Int)
  | uint64 (n : Nat)
  | float64 (bits : Nat)
  | ref (addr : Nat)
  | nil
  deriving DecidableEq, Repr

namespace ContextValue

/-- Go type test: is this a `string`? -/
def isStr : ContextValue → Bool
  | .str _ => true
  | _ => false

/-- Go type test: is this a `bool`? -/
def isBool : ContextValue → Bool
  | .bool _ => true
  | _ => false

/-- Go type test: is this an `int`? -/
def isInt : ContextValue → Bool
  | .int _ => true
  | _ => false

/-- Go type test: is this an `int32`? -/
def isInt32 : ContextValue → Bool
  | .int32 _ => true
  | _ => false

/-- Go type test: is this an `int64`? -/
def isInt64 : ContextValue → Bool
  | .int64 _ => true
  | _ => false

/-- Go type test: is this a `uint64`? -/
def isUint64 : ContextValue → Bool
  | .uint64 _ => true
  | _ => false

/-- Go type test: is this a `float64`? -/
def isFloat64 : ContextValue → Bool
  | .float64 _ => true
  | _ => false

/-- Go type assertion `v.(string)`: `none` is the run-time panic. -/
def asStr : ContextValue → Option String
  | .str s => some s
  | _ => none

/-- Go type assertion `v.(bool)`. -/
def asBool : ContextValue → Option Bool
  | .bool b => some b
  | _ => none

/-- Go type assertion `v.(int)`. -/
def asInt : ContextValue → Option Int
  | .int n => some n
  | _ => none

/-- Go type assertion `v.(int32)`. -/
def asInt32 : ContextValue → Option Int
  | .int32 n => some n
  | _ => none

/-- Go type assertion `v.(int64)`. -/
def asInt64 : ContextValue → Option Int
  | .int64 n => some n
  | _ => none

/-- Go type assertion `v.(uint64)`. -/
def asUint64 : ContextValue → Option Nat
  | .uint64 n => some n
  | _ => none

/-- Go type assertion `v.(float64)`. -/
def asFloat64 : ContextValue → Option Nat
  | .float64 bits => some bits
  | _ => none

/-- Go comma-ok type assertion `v, ok := x.(string)`: never panics, returns
the zero value and `false` on mismatch. -/
def asStrOk (v : ContextValue) : String × Bool :=
  match v with
  | .str s => (s, true)
  | _ => ("", false)

/-- Go comma-ok type assertion for `bool`. -/
def asBoolOk (v : ContextValue) : Bool × Bool :=
  match v with
  | .bool b => (b, true)
  | _ => (false, false)

/-- Go comma-ok type assertion for `int`. -/
def asIntOk (v : ContextValue) : Int × Bool :=
  match v with
  | .int n => (n, true)
  | _ => (0, false)

/-- Go comma-ok type assertion for `int32`. -/
def asInt32Ok (v : ContextValue) : Int × Bool :=
  match v with
  | .int32 n => (n, true)
  | _ => (0, false)

/-- Go comma-ok type assertion for `int64`. -/
def asInt64Ok (v : ContextValue) : Int × Bool :=
  match v with
  | .int64 n => (n, true)
  | _ => (0, false)

/-- Go comma-ok type assertion for `uint64`. -/
def asUint64Ok (v : ContextValue) : Nat × Bool :=
  match v with
  | .uint64 n => (n, true)
  | _ => (0, false)

/-- Go comma-ok type assertion for `float64`. -/
def asFloat64Ok (v : ContextValue) : Nat × Bool :=
  match v with
  | .float64 bits => (bits, true)
  | _ => (0, false)

end ContextValue

/-- The `Getter` interface of `getter.go`:
`Get(string, interface\x7b\x7d) ContextValue` and
`Has(string) (ContextValue, bool)`. -/
structure Getter where
  get : String → ContextValue → ContextValue
  has : String → ContextValue × Bool

/-- A `KeyValueDatasource`: exposes `Value(key)`, which yields a Go
`interface\x7b\x7d` (possibly the nil interface, embedded as `.nil`). -/
structure KeyValueDatasource where
  value : String → ContextValue

/-- `GettableDatasource` wraps a `KeyValueDatasource` to match `Getter`. -/
structure GettableDatasource where
  ds : KeyValueDatasource

namespace GettableDatasource

/-- `GettableDatasource.Get`: return the datasource value, or the default
when the value is nil (the `ret == nil || !reflect.ValueOf(ret).IsValid()`
check of `getter.go`). -/
def Get (g : GettableDatasource) (key : String) (defaultVal : ContextValue) :
    ContextValue :=
  let ret := g.ds.value key
  if ret = ContextValue.nil then defaultVal else ret

/-- `GettableDatasource.Has`: return the datasource value and `true`, or
`(nil, false)` when the value is nil. -/
def Has (g : GettableDatasource) (key : String) : ContextValue × Bool :=
  let ret := g.ds.value key
  if ret = ContextValue.nil then (ContextValue.nil, false) else (ret, true)

/-- Package a `GettableDatasource` as a `Getter`. -/
def toGetter (g : GettableDatasource) : Getter :=
  { get := g.Get, has := g.Has }

end GettableDatasource

/-- `GetString`: `source.Get(key, defaultValue).(string)` — the trailing
type assertion panics (`none`) on a mismatch. -/
def GetString (key defaultValue : String) (source : Getter) : Option String :=
  (source.get key (ContextValue.str defaultValue)).asStr

/-- `GetBool`: `source.Get(key, defaultValue).(bool)`. -/
def GetBool (key : String) (defaultValue : Bool) (source : Getter) :
    Option Bool :=
  (source.get key (ContextValue.bool defaultValue)).asBool

/-- `GetInt`: `source.Get(key, defaultValue).(int)`. -/
def GetInt (key : String) (defaultValue : Int) (source : Getter) :
    Option Int :=
  (source.get key (ContextValue.int defaultValue)).asInt

/-- `GetInt64`: `source.Get(key, defaultValue).(int64)`. -/
def GetInt64 (key : String) (defaultValue : Int) (source : Getter) :
    Option Int :=
  (source.get key (ContextValue.int64 defaultValue)).asInt64

/-- `GetInt32`: `source.Get(key, defaultValue).(int32)`. -/
def GetInt32 (key : String) (defaultValue : Int) (source : Getter) :
    Option Int :=
  (source.get key (ContextValue.int32 defaultValue)).asInt32

/-- `GetUint64`: `source.Get(key, defaultVal).(uint64)`. -/
def GetUint64 (key : String) (defaultVal : Nat) (source : Getter) :
    Option Nat :=
  (source.get key (ContextValue.uint64 defaultVal)).asUint64

/-- `GetFloat64`: `source.Get(key, defaultVal).(float64)`. -/
def GetFloat64 (key : String) (defaultVal : Nat) (source : Getter) :
    Option Nat :=
  (source.get key (ContextValue.float64 defaultVal)).asFloat64

/-- `HasString`: `Has` then a comma-ok assertion; on a miss or a type
mismatch it returns `("", false)` and never fails. -/
def HasString (key : String) (source : Getter) : String × Bool :=
  let r := source.has key
  if !r.2 then ("", false)
  else r.1.asStrOk

/-- `HasBool`: note the `defaultValue` parameter is accepted but unused. -/
def HasBool (key : String) (defaultValue : Bool) (source : Getter) :
    Bool × Bool :=
  let r := source.has key
  if !r.2 then (false, false)
  else r.1.asBoolOk

/-- `HasInt`: the `defaultValue` parameter is accepted but unused. -/
def HasInt (key : String) (defaultValue : Int) (source : Getter) :
    Int × Bool :=
  let r := source.has key
  if !r.2 then (0, false)
  else r.1.asIntOk

/-- `HasInt64`: the `defaultValue` parameter is accepted but unused. -/
def HasInt64 (key : String) (defaultValue : Int) (source : Getter) :
    Int × Bool :=
  let r := source.has key
  if !r.2 then (0, false)
  else r.1.asInt64Ok

/-- `HasInt32`: the `defaultValue` parameter is accepted but unused. -/
def HasInt32 (key : String) (defaultValue : Int) (source : Getter) :
    Int × Bool :=
  let r := source.has key
  if !r.2 then (0, false)
  else r.1.asInt32Ok

/-- `HasUint64`: the `defaultVal` parameter is accepted but unused. -/
def HasUint64 (key : String) (defaultVal : Nat) (source : Getter) :
    Nat × Bool :=
  let r := source.has key
  if !r.2 then (0, false)
  else r.1.asUint64Ok

/-- `HasFloat64`: the `defaultVal` parameter is accepted but unused. -/
def HasFloat64 (key : String) (defaultVal : Nat) (source : Getter) :
    Nat × Bool :=
  let r := source.has key
  if !r.2 then (0, false)
  else r.1.asFloat64Ok

/-- `DefaultGetter` holds a default value and always yields it. -/
structure DefaultGetter where
  val : ContextValue

namespace DefaultGetter

/-- `DefaultGetter.Get` ignores both arguments and returns the held value. -/
def Get (e : DefaultGetter) (name : String) (value : ContextValue) :
    ContextValue :=
  e.val

/-- `DefaultGetter.Has` ignores the name and reports the held value found. -/
def Has (e : DefaultGetter) (name : String) : ContextValue × Bool :=
  (e.val, true)

/-- Package a `DefaultGetter` as a `Getter`. -/
def toGetter (e : DefaultGetter) : Getter :=
  { get := e.Get, has := e.Has }

end DefaultGetter

/-- `GetFromFirst`: probe the sources in order; return the first `Has` hit
paired with its source, else the default paired with a `DefaultGetter`. -/
def GetFromFirst (key : String) (defaultVal : ContextValue) :
    List Getter → ContextValue × Getter
  | [] => (defaultVal, DefaultGetter.toGetter ⟨defaultVal⟩)
  | s :: rest =>
    let r := s.has key
    if r.2 then (r.1, s) else GetFromFirst key defaultVal rest

/-! ## Value Store (Context) model

The Context implementation (`context.go`) is not among the available sources;
only its test suite (`TestAddGet`, `TestCopy`, ...) and the tutorial articles
are.  The store is therefore modelled from the spec.  To make the mutation
claims about `Copy` observable, stores and mutable aggregates live in an
explicit `World`: a store handle is an index into `World.stores`, a mutable
aggregate (the test suite's `LameStruct` with its `stuff` slice of strings)
is an index into `World.agg`, referenced from a store through
`ContextValue.ref`. -/

/-- The entries of one store: an ordered key-to-value mapping, latest at the
end; `Add` overwrites in place so that each key occurs at most once. -/
abbrev StoreEntries := List (String × ContextValue)

/-- Look a key up among store entries. -/
def entriesLookup (entries : StoreEntries) (k : String) : Option ContextValue :=
  match entries.find? (fun p => p.1 == k) with
  | some p => some p.2
  | none => none

/-- Modelled from the spec: `Add(key, value)` is insert-or-overwrite — it
always succeeds, replaces the value in place when the key is present and
appends otherwise, so overwriting does not change `Len`. -/
def entriesAdd (entries : StoreEntries) (k : String) (v : ContextValue) :
    StoreEntries :=
  if entries.any (fun p => p.1 == k) then
    entries.map (fun p => if p.1 == k then (k, v) else p)
  else
    entries ++ [(k, v)]

/-- Modelled from the spec: `Remove(key)` is idempotent — removing an absent
key is a no-op. -/
def entriesRemove (entries : StoreEntries) (k : String) : StoreEntries :=
  entries.filter (fun p => !(p.1 == k))

/-- Modelled from the spec: the world of live stores and mutable aggregates.
`stores` holds every allocated store's top-level bindings; `agg` holds every
allocated mutable aggregate (a slice of strings, as in the test suite's
`LameStruct`). -/
structure World where
  stores : List StoreEntries
  agg : List (List String)
  deriving DecidableEq, Repr

namespace World

/-- The entries of the store behind handle `h`. -/
def store (w : World) (h : Nat) : StoreEntries :=
  w.stores.getD h []

/-- Modelled from the spec: `Add(key, value)` on the store behind `h`,
mutating that store in place. -/
def ctxAdd (w : World) (h : Nat) (k : String) (v : ContextValue) : World :=
  { w with stores := w.stores.set h (entriesAdd (w.store h) k v) }

/-- Modelled from the spec: `Remove(key)` on the store behind `h`. -/
def ctxRemove (w : World) (h : Nat) (k : String) : World :=
  { w with stores := w.stores.set h (entriesRemove (w.store h) k) }

/-- Modelled from the spec: `Get(key)` on the store behind `h` — a presence
test is the `Option`; a stored value is returned as is. -/
def ctxGet (w : World) (h : Nat) (k : String) : Option ContextValue :=
  entriesLookup (w.store h) k

/-- Modelled from the spec: `Len()` of the store behind `h`. -/
def ctxLen (w : World) (h : Nat) : Nat :=
  (w.store h).length

/-- The key set (as an ordered list) of the store behind `h`. -/
def ctxKeys (w : World) (h : Nat) : List String :=
  (w.store h).map (fun p => p.1)

/-- Modelled from the spec: `Copy()` of the store behind `h` — a fresh store
is allocated whose top-level bindings are those of `h` at the moment of
copy; values that are references to mutable aggregates are copied as the
same reference (shallow copy). -/
def ctxCopy (w : World) (h : Nat) : World × Nat :=
  ({ w with stores := w.stores ++ [w.store h] }, w.stores.length)

/-- Read the mutable aggregate at address `a`. -/
def readAgg (w : World) (a : Nat) : List String :=
  w.agg.getD a []

/-- Modelled from the spec: mutate the interior of the mutable aggregate at
address `a`, setting its element `i` to `s` (the test suite's
`lame.stuff[1] = "Noes"`). -/
def setAgg (w : World) (a i : Nat) (s : String) : World :=
  { w with agg := w.agg.set a ((w.agg.getD a []).set i s) }

end World

/-! ## Chain executor (Router) model

The Router, Registry and Params implementations are not among the available
sources either; they are modelled from the spec (§3 Control Signal, §4.3,
§4.4) and the tutorial article.  A per-execution store here is a plain
`StoreEntries` value, commands are functions from (context, params) to
(result, signal), and the log trace records each (logger name, message)
fan-out event in order. -/

/-- Modelled from the spec: the control signal (`cookoo.Interrupt`) returned
by a command alongside its result. -/
inductive Interrupt where
  | none
  | stop
  | reroute (target : String)
  | recoverableError (msg : String)
  | fatalError (msg : String)
  deriving DecidableEq, Repr

/-- A Params view: the per-step resolved parameter bindings, itself readable
by name. -/
abbrev Params := List (String × ContextValue)

/-- Modelled from the spec: a command (`cookoo.Command`) consumes the
context and its Params view and produces a result value and a signal. -/
abbrev Command := StoreEntries → Params → ContextValue × Interrupt

/-- Modelled from the spec: a parameter source specifier — a source kind and
a key or index within it (`cxt:msg`, `path:1`, `post:foo`). -/
inductive SourceSpec where
  | cxt (key : String)
  | path (idx : Nat)
  | post (key : String)
  deriving DecidableEq, Repr

/-- Modelled from the spec: the request-scoped inputs a transport binding
supplies — URL path segments and POSTed form fields. -/
structure Request where
  path : List String
  post : List (String × ContextValue)
  deriving DecidableEq, Repr

/-- The live Value Store viewed through the `Getter` interface. -/
def contextGetter (st : StoreEntries) : Getter :=
  { get := fun k d =>
      match entriesLookup st k with
      | some v => v
      | Option.none => d
    has := fun k =>
      match entriesLookup st k with
      | some v => (v, true)
      | Option.none => (ContextValue.nil, false) }

/-- Modelled from the spec: one source specifier as a `Getter` (the key or
index is baked in, so the probed key argument is irrelevant). -/
def specGetter (st : StoreEntries) (rq : Request) : SourceSpec → Getter
  | .cxt k =>
    { get := fun _ d => (contextGetter st).get k d
      has := fun _ => (contextGetter st).has k }
  | .path i =>
    { get := fun _ d =>
        match rq.path[i]? with
        | some s => ContextValue.str s
        | Option.none => d
      has := fun _ =>
        match rq.path[i]? with
        | some s => (ContextValue.str s, true)
        | Option.none => (ContextValue.nil, false) }
  | .post k =>
    { get := fun _ d =>
        match entriesLookup rq.post k with
        | some v => v
        | Option.none => d
      has := fun _ =>
        match entriesLookup rq.post k with
        | some v => (v, true)
        | Option.none => (ContextValue.nil, false) }

/-- Modelled from the spec: one parameter binding of a step — the parameter
name, the ordered source specifiers of its `From(...)` clause, and the
optional `WithDefault(...)` value. -/
structure Binding where
  name : String
  sources : List SourceSpec
  dflt : Option ContextValue
  deriving Repr

/-- Modelled from the spec: resolve one binding with `GetFromFirst` over the
ordered source list; with no matching source the default applies, and with
no default the absent value `nil` is handed to the operation. -/
def resolveBinding (st : StoreEntries) (rq : Request) (b : Binding) :
    ContextValue :=
  (GetFromFirst b.name (b.dflt.getD ContextValue.nil)
    (b.sources.map (specGetter st rq))).1

/-- Modelled from the spec: assemble the per-step Params view by resolving
every declared binding. -/
def resolveParams (st : StoreEntries) (rq : Request) (bs : List Binding) :
    Params :=
  bs.map (fun b => (b.name, resolveBinding st rq b))

/-- Modelled from the spec: a Step — operation, output-binding-name, and
parameter bindings. -/
structure Step where
  cmd : Command
  outputName : String
  bindings : List Binding

/-- Modelled from the spec: a Route Entry — identifier, description, ordered
steps. -/
structure RouteEntry where
  id : String
  description : String
  steps : List Step

/-- Modelled from the spec: the Route Registry; later registrations of the
same identifier win, so lookup scans latest-first. -/
abbrev Registry := List RouteEntry

/-- Look a route up by identifier, last registration winning. -/
def lookupRoute (reg : Registry) (id : String) : Option RouteEntry :=
  (reg.reverse).find? (fun r => r.id == id)

/-- The fan-out log trace: one (logger name, message) entry per sink
reached, in registration order. -/
abbrev LogTrace := List (String × String)

/-- Modelled from the spec: `Log` fans the message out to every registered
logger in registration order. -/
def logAll (loggers : List String) (msg : String) : LogTrace :=
  loggers.map (fun l => (l, msg))

/-- The outcome of running the steps of one route. -/
inductive StepsOutcome where
  | done (st : StoreEntries) (lg : LogTrace)
  | fatal (err : String) (st : StoreEntries) (lg : LogTrace)
  | rerouted (target : String) (st : StoreEntries) (lg : LogTrace)

/-- Modelled from the spec: execute steps in order.  A `none` signal stores
the result under the output-binding-name and advances; `recoverableError`
logs once per registered logger, still stores the result and advances;
`stop` ends the route successfully; `fatalError` halts with the error
surfaced unchanged; `reroute` abandons the remaining steps. -/
def execSteps (loggers : List String) (rq : Request) :
    List Step → StoreEntries → LogTrace → StepsOutcome
  | [], st, lg => .done st lg
  | step :: rest, st, lg =>
    let r := step.cmd st (resolveParams st rq step.bindings)
    match r.2 with
    | .none => execSteps loggers rq rest (entriesAdd st step.outputName r.1) lg
    | .stop => .done st lg
    | .reroute target => .rerouted target st lg
    | .recoverableError m =>
      execSteps loggers rq rest (entriesAdd st step.outputName r.1)
        (lg ++ logAll loggers m)
    | .fatalError m => .fatal m st lg

/-- The outcome of one whole route execution, as surfaced to the caller. -/
inductive RunResult where
  | ok (st : StoreEntries) (lg : LogTrace)
  | fatal (err : String) (st : StoreEntries) (lg : LogTrace)
  | notFound (id : String) (st : StoreEntries) (lg : LogTrace)
  | rerouteLimit (st : StoreEntries) (lg : LogTrace)

/-- Modelled from the spec: resolve the route and run its steps, following
`reroute` requests on the same Value Store up to a hop budget; an unknown
identifier is a not-found halt, an exhausted budget a reroute-limit halt. -/
def handleRequest (reg : Registry) (loggers : List String) (rq : Request)
    (hops : Nat) (id : String) (st : StoreEntries) (lg : LogTrace) :
    RunResult :=
  match lookupRoute reg id with
  | Option.none => .notFound id st lg
  | some route =>
    match execSteps loggers rq route.steps st lg with
    | .done st1 lg1 => .ok st1 lg1
    | .fatal e st1 lg1 => .fatal e st1 lg1
    | .rerouted target st1 lg1 =>
      match hops with
      | 0 => .rerouteLimit st1 lg1
      | n + 1 => handleRequest reg loggers rq n target st1 lg1

/-! ## Getter theorems -/

/-- A concrete getter whose stored value at every key is the `int` 5 (both
through `get` and through `has`). -/
def gInt5 : Getter :=
  { get := fun _ _ => ContextValue.int 5
    has := fun _ => (ContextValue.int 5, true) }

/-- A concrete getter that has no key at all. -/
def gMiss : Getter :=
  { get := fun _ d => d
    has := fun _ => (ContextValue.nil, false) }

/-- C1: `GetFromFirst(key, default, sources...)` returns the value from the
first source in declared order whose `Has(key)` reports true, paired with
that source; if no source has the key, it returns the default value paired
with a `DefaultGetter` whose `Has(key)` reports the default found. -/
theorem getFromFirst_first_match (key : String) (d : ContextValue)
    (sources : List Getter) :
    (GetFromFirst key d sources =
      match sources.find? (fun g => (g.has key).2) with
      | some s => ((s.has key).1, s)
      | Option.none => (d, DefaultGetter.toGetter ⟨d⟩)) ∧
    (DefaultGetter.toGetter ⟨d⟩).has key = (d, true) := by
  refine ⟨?_, rfl⟩
  induction sources with
  | nil => rfl
  | cons s rest ih =>
    by_cases h : (s.has key).2 = true
    · simp [GetFromFirst, List.find?_cons_of_pos _ h, h]
    · simp only [Bool.not_eq_true] at h
      rw [List.find?_cons_of_neg _ (by simp [h])]
      simpa [GetFromFirst, h] using ih

/-- C10: a `DefaultGetter` holding `v` is a constant getter — its `Get`
returns `v` for every key and every caller default (the caller's default is
ignored), and its `Has` reports `(v, true)` for every key. -/
theorem defaultGetter_constant (v : ContextValue) (key : String)
    (d : ContextValue) :
    DefaultGetter.Get ⟨v⟩ key d = v ∧
    DefaultGetter.Has ⟨v⟩ key = (v, true) ∧
    (DefaultGetter.toGetter ⟨v⟩).get key d = v ∧
    (DefaultGetter.toGetter ⟨v⟩).has key = (v, true) :=
  ⟨rfl, rfl, rfl, rfl⟩

/-- C2: on a getter whose stored value `v` at `key` has a different dynamic
type than requested, every typed `Get` accessor fails (the type assertion
panics, embedded as `none`), while the corresponding typed `Has` accessor
does not fail and reports not-found with the zero value. -/
theorem typed_accessor_asymmetry (g : Getter) (key : String)
    (v : ContextValue) (hhas : g.has key = (v, true))
    (hget : ∀ d, g.get key d = v) :
    (v.isStr = false → ∀ d, GetString key d g = none ∧
      HasString key g = ("", false)) ∧
    (v.isBool = false → ∀ d, GetBool key d g = none ∧
      HasBool key d g = (false, false)) ∧
    (v.isInt = false → ∀ d, GetInt key d g = none ∧
      HasInt key d g = (0, false)) ∧
    (v.isInt32 = false → ∀ d, GetInt32 key d g = none ∧
      HasInt32 key d g = (0, false)) ∧
    (v.isInt64 = false → ∀ d, GetInt64 key d g = none ∧
      HasInt64 key d g = (0, false)) ∧
    (v.isUint64 = false → ∀ d, GetUint64 key d g = none ∧
      HasUint64 key d g = (0, false)) ∧
    (v.isFloat64 = false → ∀ d, GetFloat64 key d g = none ∧
      HasFloat64 key d g = (0, false)) := by
  cases v <;>
    simp_all [GetString, GetBool, GetInt, GetInt32, GetInt64, GetUint64,
      GetFloat64, HasString, HasBool, HasInt, HasInt32, HasInt64, HasUint64,
      HasFloat64, ContextValue.isStr, ContextValue.isBool, ContextValue.isInt,
      ContextValue.isInt32, ContextValue.isInt64, ContextValue.isUint64,
      ContextValue.isFloat64, ContextValue.asStr, ContextValue.asBool,
      ContextValue.asInt, ContextValue.asInt32, ContextValue.asInt64,
      ContextValue.asUint64, ContextValue.asFloat64, ContextValue.asStrOk,
      ContextValue.asBoolOk, ContextValue.asIntOk, ContextValue.asInt32Ok,
      ContextValue.asInt64Ok, ContextValue.asUint64Ok,
      ContextValue.asFloat64Ok]

/-- C2 witness: on a getter storing the `int` 5, `GetString` fails while
`HasString` reports not-found. -/
theorem typed_accessor_asymmetry_witness :
    GetString "k" "d" gInt5 = none ∧ HasString "k" gInt5 = ("", false) :=
  (typed_accessor_asymmetry gInt5 "k" (ContextValue.int 5) rfl
    (fun _ => rfl)).1 rfl "d"

/-- C9: the typed `Has` accessors that accept a default parameter never
return that default: the result is independent of the supplied default, and
on a missing key or a type mismatch they return the type's zero value
paired with `false`. -/
theorem hasAccessors_ignore_default (g : Getter) (key : String) (db : Bool)
    (di d32 d64 : Int) (du dF : Nat) :
    (HasBool key db g = HasBool key false g ∧
     HasInt key di g = HasInt key 0 g ∧
     HasInt32 key d32 g = HasInt32 key 0 g ∧
     HasInt64 key d64 g = HasInt64 key 0 g ∧
     HasUint64 key du g = HasUint64 key 0 g ∧
     HasFloat64 key dF g = HasFloat64 key 0 g) ∧
    ((g.has key).2 = false →
      HasBool key db g = (false, false) ∧ HasInt key di g = (0, false) ∧
      HasInt32 key d32 g = (0, false) ∧ HasInt64 key d64 g = (0, false) ∧
      HasUint64 key du g = (0, false) ∧ HasFloat64 key dF g = (0, false)) ∧
    (∀ v, g.has key = (v, true) →
      (v.isBool = false → HasBool key db g = (false, false)) ∧
      (v.isInt = false → HasInt key di g = (0, false)) ∧
      (v.isInt32 = false → HasInt32 key d32 g = (0, false)) ∧
      (v.isInt64 = false → HasInt64 key d64 g = (0, false)) ∧
      (v.isUint64 = false → HasUint64 key du g = (0, false)) ∧
      (v.isFloat64 = false → HasFloat64 key dF g = (0, false))) := by
  refine ⟨⟨rfl, rfl, rfl, rfl, rfl, rfl⟩, ?_, ?_⟩
  · intro h
    simp [HasBool, HasInt, HasInt32, HasInt64, HasUint64, HasFloat64, h]
  · intro v hv
    cases v <;>
      simp_all [HasBool, HasInt, HasInt32, HasInt64, HasUint64, HasFloat64,
        ContextValue.isBool, ContextValue.isInt, ContextValue.isInt32,
        ContextValue.isInt64, ContextValue.isUint64, ContextValue.isFloat64,
        ContextValue.asBoolOk, ContextValue.asIntOk, ContextValue.asInt32Ok,
        ContextValue.asInt64Ok, ContextValue.asUint64Ok,
        ContextValue.asFloat64Ok]

/-- C9 witness: on a type mismatch (stored `int` 5) `HasBool` ignores the
supplied default `true`, and on a miss `HasInt` ignores the default 7. -/
theorem hasAccessors_ignore_default_witness :
    HasBool "k" true gInt5 = (false, false) ∧
    HasInt "k" 7 gMiss = (0, false) :=
  ⟨((hasAccessors_ignore_default gInt5 "k" true 7 7 7 7 7).2.2
      (ContextValue.int 5) rfl).1 rfl,
   ((hasAccessors_ignore_default gMiss "k" true 7 7 7 7 7).2.1 rfl).2.1⟩

/-- C3 counterexample: on a getter storing the `int` 5 under `"k"`, the
typed accessor `GetString "k" "d"` does not return the supplied default
`"d"` — it fails (the type assertion panics). -/
theorem getString_mismatch_not_default :
    GetString "k" "d" gInt5 = none ∧ GetString "k" "d" gInt5 ≠ some "d" := by
  refine ⟨rfl, ?_⟩
  intro h
  simp [GetString, gInt5, ContextValue.asStr] at h

/-- C3 (amended): the underlying `Get(key, default)` itself never fails —
it returns the default exactly on a miss (nil value) and the stored value
otherwise — but a typed accessor applied to a stored value of a different
type fails (its type assertion panics) rather than returning the supplied
default. -/
theorem get_total_but_typed_accessor_fails (ds : KeyValueDatasource)
    (key : String) (d : ContextValue) :
    (ds.value key = ContextValue.nil → GettableDatasource.Get ⟨ds⟩ key d = d) ∧
    (ds.value key ≠ ContextValue.nil →
      GettableDatasource.Get ⟨ds⟩ key d = ds.value key) ∧
    (∀ (g : Getter) (s : String) (v : ContextValue),
      (∀ d2, g.get key d2 = v) → v.isStr = false →
      GetString key s g = none) := by
  refine ⟨?_, ?_, ?_⟩
  · intro h
    simp [GettableDatasource.Get, h]
  · intro h
    simp [GettableDatasource.Get, h]
  · intro g s v hget hv
    cases v <;>
      simp_all [GetString, ContextValue.isStr, ContextValue.asStr]

/-- C3 witness: a nil-valued datasource yields the default through `Get`,
and a mismatched typed accessor fails instead of yielding its default. -/
theorem get_total_but_typed_accessor_fails_witness :
    GettableDatasource.Get ⟨⟨fun _ => ContextValue.nil⟩⟩ "k"
      (ContextValue.str "d") = ContextValue.str "d" ∧
    GetString "k" "d" gInt5 = none :=
  ⟨(get_total_but_typed_accessor_fails ⟨fun _ => ContextValue.nil⟩ "k"
      (ContextValue.str "d")).1 rfl,
   (get_total_but_typed_accessor_fails ⟨fun _ => ContextValue.nil⟩ "k"
      (ContextValue.str "d")).2.2 gInt5 "d" (ContextValue.int 5)
      (fun _ => rfl) rfl⟩

/-! ## Value Store copy theorems -/

/-- Setting one index of a list leaves every other index unchanged. -/
theorem getD_set_ne {α : Type} (l : List α) (i j : Nat) (x d : α)
    (h : i ≠ j) : (l.set i x).getD j d = l.getD j d := by
  induction l generalizing i j with
  | nil => simp
  | cons a as ih =>
    cases i with
    | zero =>
      cases j with
      | zero => exact absurd rfl h
      | succ j2 => simp
    | succ i2 =>
      cases j with
      | zero => simp
      | succ j2 =>
        simpa using ih i2 j2 (fun e => h (by rw [e]))

/-- Indexing below the left part of an append stays in the left part. -/
theorem getD_append_left {α : Type} (l1 l2 : List α) (j : Nat) (d : α)
    (h : j < l1.length) : (l1 ++ l2).getD j d = l1.getD j d := by
  induction l1 generalizing j with
  | nil => exact absurd h (by simp)
  | cons a as ih =>
    cases j with
    | zero => simp
    | succ j2 => exact ih j2 (by simpa using h)

/-- Indexing an appended singleton at the old length yields that element. -/
theorem getD_append_length {α : Type} (l1 : List α) (x d : α) :
    (l1 ++ [x]).getD l1.length d = x := by
  induction l1 with
  | nil => rfl
  | cons a as ih => simpa using ih

/-- Reading back an index just overwritten with a function of its old
value, with no bounds assumption (an out-of-range set is a no-op on both
sides). -/
theorem getD_set_interior (l : List (List String)) (a idx : Nat)
    (s : String) :
    (l.set a ((l.getD a []).set idx s)).getD a [] =
      (l.getD a []).set idx s := by
  induction l generalizing a with
  | nil => simp
  | cons x xs ih =>
    cases a with
    | zero => simp
    | succ a2 => simpa using ih a2

/-- C4: copying the store behind handle `i` yields a fresh handle `j` with
the same length at the moment of copy, and a subsequent `Add` or `Remove`
of a top-level binding on either handle (overwrites included) leaves the
other handle's top-level bindings — hence its key set — unchanged. -/
theorem copy_isolates_toplevel (w w1 : World) (i j : Nat)
    (hi : i < w.stores.length) (hc : w.ctxCopy i = (w1, j)) :
    w1.ctxLen j = w1.ctxLen i ∧
    (∀ k v, (w1.ctxAdd i k v).store j = w1.store j ∧
      (w1.ctxAdd i k v).ctxKeys j = w1.ctxKeys j ∧
      (w1.ctxAdd j k v).store i = w1.store i ∧
      (w1.ctxAdd j k v).ctxKeys i = w1.ctxKeys i) ∧
    (∀ k, (w1.ctxRemove i k).store j = w1.store j ∧
      (w1.ctxRemove j k).store i = w1.store i) := by
  have hw1 : w1 = { w with stores := w.stores ++ [w.store i] } := by
    have h := congrArg Prod.fst hc
    simpa [World.ctxCopy] using h.symm
  have hj : j = w.stores.length := by
    have h := congrArg Prod.snd hc
    simpa [World.ctxCopy] using h.symm
  subst hw1 hj
  have hij : i ≠ w.stores.length := Nat.ne_of_lt hi
  have hsj : ∀ st : List StoreEntries, st = w.stores ++ [w.store i] →
      st.getD w.stores.length [] = w.store i := by
    intro st hst
    rw [hst]
    exact getD_append_length w.stores (w.store i) []
  have hstorej :
      (World.mk (w.stores ++ [w.store i]) w.agg).store w.stores.length =
        w.store i := hsj _ rfl
  have hstorei :
      (World.mk (w.stores ++ [w.store i]) w.agg).store i = w.store i := by
    show (w.stores ++ [w.store i]).getD i [] = w.stores.getD i []
    exact getD_append_left w.stores [w.store i] i [] hi
  have hijs : w.stores.length ≠ i := fun e => hij e.symm
  refine ⟨?_, ?_, ?_⟩
  · show ((w.stores ++ [w.store i]).getD w.stores.length []).length =
      ((w.stores ++ [w.store i]).getD i []).length
    rw [getD_append_length w.stores (w.store i) [],
      getD_append_left w.stores [w.store i] i [] hi]
    rfl
  · intro k v
    refine ⟨?_, ?_, ?_, ?_⟩
    · show ((w.stores ++ [w.store i]).set i _).getD w.stores.length [] =
        (w.stores ++ [w.store i]).getD w.stores.length []
      exact getD_set_ne _ i w.stores.length _ [] hij
    · show (((w.stores ++ [w.store i]).set i _).getD w.stores.length
        []).map (fun p => p.1) =
        ((w.stores ++ [w.store i]).getD w.stores.length []).map
          (fun p => p.1)
      exact congrArg (List.map (fun p : String × ContextValue => p.1))
        (getD_set_ne _ i w.stores.length _ [] hij)
    · show ((w.stores ++ [w.store i]).set w.stores.length _).getD i [] =
        (w.stores ++ [w.store i]).getD i []
      exact getD_set_ne _ w.stores.length i _ [] hijs
    · show (((w.stores ++ [w.store i]).set w.stores.length _).getD i
        []).map (fun p => p.1) =
        ((w.stores ++ [w.store i]).getD i []).map (fun p => p.1)
      exact congrArg (List.map (fun p : String × ContextValue => p.1))
        (getD_set_ne _ w.stores.length i _ [] hijs)
  · intro k
    refine ⟨?_, ?_⟩
    · show ((w.stores ++ [w.store i]).set i _).getD w.stores.length [] =
        (w.stores ++ [w.store i]).getD w.stores.length []
      exact getD_set_ne _ i w.stores.length _ [] hij
    · show ((w.stores ++ [w.store i]).set w.stores.length _).getD i [] =
        (w.stores ++ [w.store i]).getD i []
      exact getD_set_ne _ w.stores.length i _ [] hijs

/-- A concrete world mirroring `TestCopy`: one store binding `"a"` to a
mutable aggregate reference and `"b"` to a string; the aggregate heap holds
the aggregate's string slice. -/
def wTest : World :=
  { stores := [[("a", ContextValue.ref 0),
      ("b", ContextValue.str "This is the song that never ends")]]
    agg := [["O", "Hai"]] }

/-- C4 witness: copying the `TestCopy` store preserves its length, and an
`Add` of `"c"` on the original leaves the copy's bindings unchanged. -/
theorem copy_isolates_toplevel_witness :
    (wTest.ctxCopy 0).1.ctxLen (wTest.ctxCopy 0).2 =
      (wTest.ctxCopy 0).1.ctxLen 0 ∧
    ((wTest.ctxCopy 0).1.ctxAdd 0 "c" (ContextValue.int 1234)).store
      (wTest.ctxCopy 0).2 = (wTest.ctxCopy 0).1.store (wTest.ctxCopy 0).2 :=
  ⟨(copy_isolates_toplevel wTest (wTest.ctxCopy 0).1 0 (wTest.ctxCopy 0).2
      (by decide) rfl).1,
   ((copy_isolates_toplevel wTest (wTest.ctxCopy 0).1 0 (wTest.ctxCopy 0).2
      (by decide) rfl).2.1 "c" (ContextValue.int 1234)).1⟩

/-- C5: a shallow copy shares a stored mutable aggregate by reference —
the copy binds the same aggregate address, and after mutating the
aggregate's interior, reading the key through either store still reaches
that address, whose contents now show the mutation. -/
theorem copy_shares_aggregates (w w1 : World) (i j a : Nat) (key : String)
    (hi : i < w.stores.length) (hc : w.ctxCopy i = (w1, j))
    (hv : w.ctxGet i key = some (ContextValue.ref a)) (idx : Nat)
    (s : String) :
    w1.ctxGet i key = some (ContextValue.ref a) ∧
    w1.ctxGet j key = some (ContextValue.ref a) ∧
    (w1.setAgg a idx s).ctxGet i key = some (ContextValue.ref a) ∧
    (w1.setAgg a idx s).ctxGet j key = some (ContextValue.ref a) ∧
    (w1.setAgg a idx s).readAgg a = (w1.readAgg a).set idx s := by
  have hw1 : w1 = { w with stores := w.stores ++ [w.store i] } := by
    have h := congrArg Prod.fst hc
    simpa [World.ctxCopy] using h.symm
  have hj : j = w.stores.length := by
    have h := congrArg Prod.snd hc
    simpa [World.ctxCopy] using h.symm
  subst hw1 hj
  have hsi : (w.stores ++ [w.store i]).getD i [] = w.stores.getD i [] :=
    getD_append_left w.stores [w.store i] i [] hi
  have hsjl : (w.stores ++ [w.store i]).getD w.stores.length [] =
      w.store i :=
    getD_append_length w.stores (w.store i) []
  refine ⟨?_, ?_, ?_, ?_, ?_⟩
  · show entriesLookup ((w.stores ++ [w.store i]).getD i []) key = _
    rw [hsi]; exact hv
  · show entriesLookup ((w.stores ++ [w.store i]).getD w.stores.length [])
      key = _
    rw [hsjl]; exact hv
  · show entriesLookup ((w.stores ++ [w.store i]).getD i []) key = _
    rw [hsi]; exact hv
  · show entriesLookup ((w.stores ++ [w.store i]).getD w.stores.length [])
      key = _
    rw [hsjl]; exact hv
  · show (w.agg.set a ((w.agg.getD a []).set idx s)).getD a [] = _
    exact getD_set_interior w.agg a idx s

/-- C5 witness: in the `TestCopy` world, after mutating the shared
aggregate's element 1 to `"Noes"`, the copy still reaches address 0 under
`"a"`, and the aggregate there reads `["O", "Noes"]`. -/
theorem copy_shares_aggregates_witness :
    ((wTest.ctxCopy 0).1.setAgg 0 1 "Noes").ctxGet (wTest.ctxCopy 0).2 "a" =
      some (ContextValue.ref 0) ∧
    ((wTest.ctxCopy 0).1.setAgg 0 1 "Noes").readAgg 0 = ["O", "Noes"] := by
  have h := copy_shares_aggregates wTest (wTest.ctxCopy 0).1 0
    (wTest.ctxCopy 0).2 0 "a" (by decide) rfl (by decide) 1 "Noes"
  exact ⟨h.2.2.2.1, h.2.2.2.2.trans (by decide)⟩

/-! ## Executor theorems -/

/-- Looking up a key just written by `entriesAdd` yields the new value,
whether the write overwrote or appended. -/
theorem entriesLookup_entriesAdd_self (st : StoreEntries) (k : String)
    (v : ContextValue) : entriesLookup (entriesAdd st k v) k = some v := by
  induction st with
  | nil => simp [entriesAdd, entriesLookup]
  | cons p ps ih =>
    by_cases hp : p.1 = k
    · simp [entriesAdd, entriesLookup, hp]
    · by_cases hs : ps.any (fun q => q.1 == k) <;>
        simp_all [entriesAdd, entriesLookup, List.find?_cons, hp]

/-- C6: in a route with steps `[A stored under "x", B stored under "y"]`
where B's single parameter is bound to the context source under key `"x"`
and A completes with signal none returning `a`, execution continues with B
on the store holding `"x" := a`, and B's resolved Params view binds its
parameter to exactly `a`. -/
theorem route_pipes_prior_result (loggers : List String) (rq : Request)
    (fA fB : Command) (pname : String) (st0 st1 : StoreEntries)
    (lg : LogTrace) (a : ContextValue)
    (hA : fA st0 (resolveParams st0 rq []) = (a, Interrupt.none))
    (hst1 : st1 = entriesAdd st0 "x" a) :
    resolveParams st1 rq [⟨pname, [SourceSpec.cxt "x"], Option.none⟩] =
      [(pname, a)] ∧
    execSteps loggers rq [⟨fA, "x", []⟩,
        ⟨fB, "y", [⟨pname, [SourceSpec.cxt "x"], Option.none⟩]⟩] st0 lg =
      execSteps loggers rq
        [⟨fB, "y", [⟨pname, [SourceSpec.cxt "x"], Option.none⟩]⟩] st1 lg := by
  subst hst1
  constructor
  · simp [resolveParams, resolveBinding, GetFromFirst, specGetter,
      contextGetter, entriesLookup_entriesAdd_self]
  · simp [execSteps, hA]

/-- A command that produces a constant message with a none signal. -/
def cmdMsg : Command := fun _ _ => (ContextValue.str "hello", Interrupt.none)

/-- A command standing in for a flush step. -/
def cmdFlush : Command :=
  fun _ _ => (ContextValue.str "flushed", Interrupt.none)

/-- C6 witness: with `"x"` just stored as `"hello"`, the `cxt:x` binding of
the second step resolves to exactly that value. -/
theorem route_pipes_prior_result_witness :
    resolveParams (entriesAdd [] "x" (ContextValue.str "hello")) ⟨[], []⟩
      [⟨"content", [SourceSpec.cxt "x"], Option.none⟩] =
      [("content", ContextValue.str "hello")] :=
  (route_pipes_prior_result [] ⟨[], []⟩ cmdMsg cmdFlush "content" []
    (entriesAdd [] "x" (ContextValue.str "hello")) []
    (ContextValue.str "hello") rfl rfl).1

/-- C7: a step returning a RecoverableError is logged exactly once per
registered logger in registration order, its result is still stored under
its output-binding-name, and the remaining steps still execute; with no
remaining steps the route completes as done, so the error never escapes the
executor. -/
theorem recoverable_error_logs_and_continues (loggers : List String)
    (rq : Request) (step : Step) (rest : List Step) (st : StoreEntries)
    (lg : LogTrace) (res : ContextValue) (m : String)
    (hs : step.cmd st (resolveParams st rq step.bindings) =
      (res, Interrupt.recoverableError m)) :
    execSteps loggers rq (step :: rest) st lg =
      execSteps loggers rq rest (entriesAdd st step.outputName res)
        (lg ++ logAll loggers m) ∧
    (logAll loggers m).length = loggers.length ∧
    (rest = [] → execSteps loggers rq (step :: rest) st lg =
      StepsOutcome.done (entriesAdd st step.outputName res)
        (lg ++ logAll loggers m)) := by
  refine ⟨by simp [execSteps, hs], by simp [logAll], ?_⟩
  intro h
  subst h
  simp [execSteps, hs]

/-- A command that raises a recoverable error alongside its result. -/
def cmdRecover : Command :=
  fun _ _ => (ContextValue.str "r", Interrupt.recoverableError "oops")

/-- C7 witness: with loggers `["foo", "bar"]`, a single recoverable step
completes the route with its result stored and one log entry per logger. -/
theorem recoverable_error_logs_and_continues_witness :
    execSteps ["foo", "bar"] ⟨[], []⟩ [⟨cmdRecover, "o", []⟩] [] [] =
      StepsOutcome.done (entriesAdd [] "o" (ContextValue.str "r"))
        ([] ++ logAll ["foo", "bar"] "oops") :=
  (recoverable_error_logs_and_continues ["foo", "bar"] ⟨[], []⟩
    ⟨cmdRecover, "o", []⟩ [] [] [] (ContextValue.str "r") "oops" rfl).2.2 rfl

/-- C8: a step returning a FatalError halts the route before any later step
executes — the outcome does not depend on the remaining steps — and the
error is surfaced to the caller unchanged through `handleRequest`. -/
theorem fatal_error_halts_and_surfaces (reg : Registry)
    (loggers : List String) (rq : Request) (hops : Nat) (id : String)
    (route : RouteEntry) (step : Step) (rest : List Step)
    (st : StoreEntries) (lg : LogTrace) (res : ContextValue) (m : String)
    (hr : lookupRoute reg id = some route)
    (hsteps : route.steps = step :: rest)
    (hs : step.cmd st (resolveParams st rq step.bindings) =
      (res, Interrupt.fatalError m)) :
    execSteps loggers rq (step :: rest) st lg =
      StepsOutcome.fatal m st lg ∧
    handleRequest reg loggers rq hops id st lg =
      RunResult.fatal m st lg := by
  constructor
  · simp [execSteps, hs]
  · simp [handleRequest, hr, hsteps, execSteps, hs]

/-- A command that raises a fatal error. -/
def cmdFatal : Command := fun _ _ => (ContextValue.nil, Interrupt.fatalError "boom")

/-- A one-route registry whose route raises a fatal error on its first step
and has a second step that must never run. -/
def regFatal : Registry :=
  [⟨"GET /", "home", [⟨cmdFatal, "o", []⟩, ⟨cmdFlush, "out", []⟩]⟩]

/-- C8 witness: running the fatal route surfaces `"boom"` unchanged and the
second step never executes. -/
theorem fatal_error_halts_and_surfaces_witness :
    handleRequest regFatal [] ⟨[], []⟩ 8 "GET /" [] [] =
      RunResult.fatal "boom" [] [] :=
  (fatal_error_halts_and_surfaces regFatal [] ⟨[], []⟩ 8 "GET /"
    ⟨"GET /", "home", [⟨cmdFatal, "o", []⟩, ⟨cmdFlush, "out", []⟩]⟩
    ⟨cmdFatal, "o", []⟩ [⟨cmdFlush, "out", []⟩] [] [] ContextValue.nil
    "boom" rfl rfl rfl).2
